import Mathlib

/-!
Verification development for the SeaShell command interpreter (src/Seashell.c).

The C program is shallowly embedded below:

* the `args` array built by `strtok` in `main` becomes a `List (Option String)`
  (`some tok` for a token pointer, `none` for a `NULL` cell);
* the operator-scanning `for` loop at the top of `execCmd` (lines 133-166)
  becomes the structurally recursive `scanIter` / `scanTok`;
* process-level side effects (fork, pipe, dup2, open, wait) are reified as data:
  each child is a `ChildResult` describing either the `execvp` call it reaches
  (with its final stdin/stdout bindings) or the status it exits with, and the
  parent's waiting behaviour is a `ParentWait` value;
* fallible OS calls are driven by a record `OS` of success flags; calls whose
  failure is input-determined (opening or exec-ing a `NULL` pointer) fail
  unconditionally.

The read-eval loop of `main` (lines 37-90) is embedded as `runLine`, which
records chdir calls, error reports, interpreter exit, and the `execCmd`
outcome for one input line.
-/

set_option linter.unusedVariables false
set_option linter.unnecessarySimpa false

namespace SeaShell

/-- Result of the scanning loop of `execCmd` (Seashell.c lines 121-166):
the (mutated) `parsed` array plus the classification flags and positions.
`scanPipes` counts the `pipe(pipe_fd)` calls made *during the scan*
(line 163); their descriptors are never closed. -/
structure Scan where
  parsed : List (Option String)
  background : Bool
  append : Bool
  output_redirection : Bool
  input_redirection : Bool
  output_file_pos : Nat
  input_file_pos : Nat
  is_pipe : Bool
  piped_cmd_pos : Nat
  scanPipes : Nat
  deriving DecidableEq, Repr

/-- Initial state of `execCmd`'s locals (lines 122-130). -/
def initScan (args : List (Option String)) : Scan :=
  { parsed := args
    background := false
    append := false
    output_redirection := false
    input_redirection := false
    output_file_pos := 0
    input_file_pos := 0
    is_pipe := false
    piped_cmd_pos := 0
    scanPipes := 0 }

/-- One iteration body of the scanning loop (lines 136-165), for the token `t`
found at index `i`.  Each operator branch overwrites `parsed[i]` with `NULL`
and records its role; any other token is left alone (no `else` branch in C). -/
def scanTok (s : Scan) (i : Nat) (t : String) : Scan :=
  if t = "&" then
    { s with parsed := s.parsed.set i none, background := true }
  else if t = ">" then
    { s with
        parsed := s.parsed.set i none
        output_redirection := true
        output_file_pos := i }
  else if t = ">>" then
    { s with
        parsed := s.parsed.set i none
        append := true
        output_file_pos := i }
  else if t = "<" then
    { s with
        parsed := s.parsed.set i none
        input_redirection := true
        input_file_pos := i }
  else if t = "|" then
    { s with
        parsed := s.parsed.set i none
        is_pipe := true
        piped_cmd_pos := i + 1
        scanPipes := s.scanPipes + 1 }
  else s

/-- The scanning loop `for (i = 0; i < 10; i++) { if (parsed[i] == NULL) break; ... }`
(lines 133-166).  `fuel` bounds the remaining iterations; `execCmd` starts it at
10, which together with the `i < 10` guard reproduces the C loop exactly. -/
def scanIter (s : Scan) (i : Nat) : Nat → Scan
  | 0 => s
  | fuel + 1 =>
    if i < 10 then
      match s.parsed[i]? with
      | some (some t) => scanIter (scanTok s i t) (i + 1) fuel
      | _ => s
    else s

/-- The whole classification pass of `execCmd` over the `parsed` array. -/
def scanOf (args : List (Option String)) : Scan :=
  scanIter (initScan args) 0 10

/-- The C `args` array built in `main` (lines 54-60): the tokens followed by
the `NULL` terminator written at `args[i]`. -/
def mkArgs (ts : List String) : List (Option String) :=
  ts.map some ++ [none]

/-- Reading cell `i` of a (possibly mutated) `args` array, as C pointer reads
like `cmd[input_file_pos + 1]` do: a `NULL` cell reads as `none`. -/
def cGet (p : List (Option String)) (i : Nat) : Option String :=
  match p[i]? with
  | some v => v
  | none => none

/-- The argument vector a C `execvp(ptr, arr)` call actually receives: the
cells of `arr` up to (excluding) the first `NULL`. -/
def cArgv : List (Option String) → List String
  | [] => []
  | none :: _ => []
  | some t :: rest => t :: cArgv rest

/-- Open flags and mode used by `outputRedirection` / `inputRedirection`
(lines 213, 232, 235). -/
structure OpenSpec where
  write : Bool
  creat : Bool
  trunc : Bool
  append : Bool
  mode : Nat
  deriving DecidableEq, Repr

/-- The `open` call of `outputRedirection` (lines 231-235):
`O_WRONLY | O_CREAT | O_APPEND` when `append`, else
`O_WRONLY | O_CREAT | O_TRUNC`, both with mode `0777`. -/
def outputOpenSpec (append : Bool) : OpenSpec :=
  if append then
    { write := true, creat := true, trunc := false, append := true, mode := 0o777 }
  else
    { write := true, creat := true, trunc := true, append := false, mode := 0o777 }

/-- Final binding of a child's standard stream after the dup2 calls. -/
inductive IOBind where
  | inherit
  | fromFile (path : Option String)
  | toFile (path : Option String) (spec : OpenSpec)
  | pipeWrite
  | pipeRead
  deriving DecidableEq, Repr

/-- What a forked child does: reach `execvp` with the given program, argument
vector and stream bindings, or exit first with the given status. -/
inductive ChildResult where
  | execed (prog : String) (argv : List String) (stdinB stdoutB : IOBind)
  | exited (status : Nat)
  deriving DecidableEq, Repr

/-- The parent's waiting behaviour after spawning. -/
inductive ParentWait where
  /-- `waitpid(pid, NULL, WNOHANG)` on the just-created child: non-blocking. -/
  | nohangCreated
  /-- `wait(NULL)`: block until an arbitrary child terminates. -/
  | blockAnyOnce
  /-- blocking `waitpid` on the just-created child (used only by the
  spec-side comparison definition, never produced by the embedded code). -/
  | blockCreated
  /-- `waitpid(pid1, NULL, 0); waitpid(pid2, NULL, 0)` on both pipe children. -/
  | blockBothCreated
  /-- return without waiting. -/
  | noWait
  deriving DecidableEq, Repr

/-- Success flags for the fallible OS calls of one `execCmd` invocation. -/
structure OS where
  pipeOk : Bool
  fork1Ok : Bool
  fork2Ok : Bool
  openInOk : Bool
  openOutOk : Bool
  exec1Ok : Bool
  exec2Ok : Bool
  deriving DecidableEq, Repr

def osAllOk : OS :=
  { pipeOk := true
    fork1Ok := true
    fork2Ok := true
    openInOk := true
    openOutOk := true
    exec1Ok := true
    exec2Ok := true }

/-- `open(path, ...)` succeeds only when the path pointer is non-`NULL` and the
OS grants it; `open(NULL, ...)` always fails (EFAULT). -/
def openOk (path : Option String) (ok : Bool) : Bool :=
  path.isSome && ok

/-- Everything `execCmd` does, as data: children created (in creation order),
net change in the parent's open-descriptor count, the parent's waiting
behaviour, and whether the parent printed an error. -/
structure Outcome where
  children : List ChildResult
  parentFdDelta : Nat
  parentWait : ParentWait
  parentErr : Bool
  deriving DecidableEq, Repr

/-- Child body of the single-command shape (lines 182-193): output redirection
first, then input redirection, then `execvp(parsed[0], parsed)`.  A failed
redirection open exits with status 1 (lines 216, 239); a failed `execvp`
prints and falls through to `exit(0)` (lines 190-193). -/
def runSingleChild (parsed : List (Option String)) (outRed append inRed : Bool)
    (outPos inPos : Nat) (os : OS) : ChildResult :=
  if (outRed || append) && !openOk (cGet parsed (outPos + 1)) os.openOutOk then
    ChildResult.exited 1
  else
    let so := if outRed || append then
        IOBind.toFile (cGet parsed (outPos + 1)) (outputOpenSpec append)
      else IOBind.inherit
    if inRed && !openOk (cGet parsed (inPos + 1)) os.openInOk then
      ChildResult.exited 1
    else
      let si := if inRed then IOBind.fromFile (cGet parsed (inPos + 1))
        else IOBind.inherit
      match cGet parsed 0 with
      | some pr =>
        if os.exec1Ok then ChildResult.execed pr (cArgv parsed) si so
        else ChildResult.exited 0
      | none => ChildResult.exited 0

/-- First pipe child (lines 275-289): stdout rebound to the pipe's write end
(both pipe fds then closed in the child), then input redirection, then
`execvp(parsed[0], parsed)`; a failed `execvp` exits with status 1. -/
def runPipeChild1 (parsed : List (Option String)) (inRed : Bool) (inPos : Nat)
    (os : OS) : ChildResult :=
  if inRed && !openOk (cGet parsed (inPos + 1)) os.openInOk then
    ChildResult.exited 1
  else
    let si := if inRed then IOBind.fromFile (cGet parsed (inPos + 1))
      else IOBind.inherit
    match cGet parsed 0 with
    | some pr =>
      if os.exec1Ok then ChildResult.execed pr (cArgv parsed) si IOBind.pipeWrite
      else ChildResult.exited 1
    | none => ChildResult.exited 1

/-- Second pipe child (lines 300-314): stdin rebound to the pipe's read end,
then output redirection, then `execvp(parsed[piped_cmd_pos], &parsed[piped_cmd_pos])`;
a failed `execvp` exits with status 1. -/
def runPipeChild2 (parsed : List (Option String)) (outRed append : Bool)
    (outPos pos : Nat) (os : OS) : ChildResult :=
  if (outRed || append) && !openOk (cGet parsed (outPos + 1)) os.openOutOk then
    ChildResult.exited 1
  else
    let so := if outRed || append then
        IOBind.toFile (cGet parsed (outPos + 1)) (outputOpenSpec append)
      else IOBind.inherit
    match cGet parsed pos with
    | some pr =>
      if os.exec2Ok then
        ChildResult.execed pr (cArgv (parsed.drop pos)) IOBind.pipeRead so
      else ChildResult.exited 1
    | none => ChildResult.exited 1

/-- `pipeCommands` (lines 259-329).  Descriptor accounting in the parent:
the pipe adds two descriptors; the parent closes both only on the path that
reaches lines 318-319 — the fork-failure returns at lines 270-272 and 295-297
leave them open. -/
def pipeCommands (parsed : List (Option String))
    (background outRed append inRed : Bool) (outPos inPos pos : Nat)
    (os : OS) : Outcome :=
  if !os.pipeOk then
    { children := []
      parentFdDelta := 0
      parentWait := ParentWait.noWait
      parentErr := true }
  else if !os.fork1Ok then
    { children := []
      parentFdDelta := 2
      parentWait := ParentWait.noWait
      parentErr := true }
  else
    let c1 := runPipeChild1 parsed inRed inPos os
    if !os.fork2Ok then
      { children := [c1]
        parentFdDelta := 2
        parentWait := ParentWait.noWait
        parentErr := true }
    else
      let c2 := runPipeChild2 parsed outRed append outPos pos os
      { children := [c1, c2]
        parentFdDelta := 0
        parentWait := if background then ParentWait.noWait
          else ParentWait.blockBothCreated
        parentErr := false }

/-- `execCmd` (lines 121-203): classify the token array, then either pipeline
orchestration or the single fork/exec.  The `2 * scanPipes` term accounts for
the descriptors of the pipe(s) opened during classification (line 163), which
no code ever closes. -/
def execCmd (args : List (Option String)) (os : OS) : Outcome :=
  let s := scanOf args
  if s.is_pipe then
    let o := pipeCommands s.parsed s.background s.output_redirection s.append
      s.input_redirection s.output_file_pos s.input_file_pos s.piped_cmd_pos os
    { o with parentFdDelta := o.parentFdDelta + 2 * s.scanPipes }
  else
    if os.fork1Ok then
      { children := [runSingleChild s.parsed s.output_redirection s.append
          s.input_redirection s.output_file_pos s.input_file_pos os]
        parentFdDelta := 2 * s.scanPipes
        parentWait := if s.background then ParentWait.nohangCreated
          else ParentWait.blockAnyOnce
        parentErr := false }
    else
      { children := []
        parentFdDelta := 2 * s.scanPipes
        parentWait := ParentWait.noWait
        parentErr := true }

/-- `strtok(command, " ")` grouping: split the character buffer on runs of
spaces (line 54-59 use the single-character separator set `" "`). -/
def splitOnSpace : List Char → List (List Char)
  | [] => [[]]
  | c :: cs =>
    let r := splitOnSpace cs
    if c = ' ' then [] :: r
    else
      match r with
      | [] => [[c]]
      | g :: gs => (c :: g) :: gs

/-- The tokenization loop of `main` (lines 54-59): successive `strtok` tokens,
at most 10 of them (`i < 10`); the rest of the line is dropped. -/
def tokenize (line : List Char) : List String :=
  (((splitOnSpace line).filter (fun g => g ≠ [])).map (fun g => String.mk g)).take 10

/-- Environment of one read-eval iteration: the value `getenv("HOME")`
returns and whether a `chdir` on a non-`NULL` path would succeed. -/
structure Env where
  home : Option String
  chdirOk : Bool
  os : OS
  deriving DecidableEq, Repr

/-- Observable effects of processing one input line in `main`. -/
structure LineOutcome where
  children : List ChildResult
  parentFdDelta : Nat
  parentWait : Option ParentWait
  chdirCalls : List (Option String)
  errorReported : Bool
  exitStatus : Option Nat
  deriving DecidableEq, Repr

/-- The outcome of a line that does nothing observable. -/
def emptyOutcome : LineOutcome :=
  { children := []
    parentFdDelta := 0
    parentWait := none
    chdirCalls := []
    errorReported := false
    exitStatus := none }

/-- One iteration of the read-eval loop of `main` (lines 54-87): tokenize,
then dispatch on `args[0]` — `exit` (line 63-65), `cd` (lines 66-84, including
the `cd ~` branch that calls `exit(1)` on failure, line 75), otherwise
`execCmd` (line 86).  All branches guard on `args[0] != NULL`. -/
def runLine (line : List Char) (env : Env) : LineOutcome :=
  let ts := tokenize line
  match ts.head? with
  | none => emptyOutcome
  | some t0 =>
    if t0 = "exit" then
      { emptyOutcome with exitStatus := some 1 }
    else if t0 = "cd" then
      match ts[1]? with
      | none => emptyOutcome
      | some p =>
        if p = "~" then
          match env.home with
          | some h =>
            if env.chdirOk then { emptyOutcome with chdirCalls := [some h] }
            else
              { emptyOutcome with
                  chdirCalls := [some h]
                  errorReported := true
                  exitStatus := some 1 }
          | none =>
            { emptyOutcome with
                chdirCalls := [none]
                errorReported := true
                exitStatus := some 1 }
        else
          if env.chdirOk then { emptyOutcome with chdirCalls := [some p] }
          else { emptyOutcome with chdirCalls := [some p], errorReported := true }
    else
      let o := execCmd (mkArgs ts) env.os
      { children := o.children
        parentFdDelta := o.parentFdDelta
        parentWait := some o.parentWait
        chdirCalls := []
        errorReported := o.parentErr
        exitStatus := none }

/-- A token is one of the five recognized operator tokens (§6 of the design:
exact standalone matches only). -/
def isOp (t : String) : Bool :=
  t = "&" || t = ">" || t = ">>" || t = "<" || t = "|"

/-- Fold form of the scanning loop, used by the proofs: process the tokens of
`ts` at consecutive indices starting at `i`.  `scanIter` coincides with it on
arrays of `mkArgs` shape (theorem `scanOf_mkArgs`). -/
def scanList (s : Scan) (i : Nat) : List String → Scan
  | [] => s
  | t :: ts => scanList (scanTok s i t) (i + 1) ts

/-- Effect of the scan on the `parsed` array alone: each operator token's
cell is overwritten with `NULL`. -/
def applyOps (p : List (Option String)) (i : Nat) : List String → List (Option String)
  | [] => p
  | t :: ts => applyOps (if isOp t then p.set i none else p) (i + 1) ts

/-- Per-cell effect of the scan: operator tokens are cleared to `NULL`. -/
def maskTok (t : String) : Option String :=
  if isOp t then none else some t

/-- Modelled from the spec (§4.2): the spec's description of `argv`
construction — "only the tokens not consumed by an operator and not
immediately following an operator as its argument".  Operator tokens are
dropped; `>`, `>>` and `<` also consume the following path token; `&` and `|`
consume no argument token for the first stage's argv. -/
def specArgv : List String → List String
  | [] => []
  | t :: ts =>
    if t = ">" ∨ t = ">>" ∨ t = "<" then
      match ts with
      | [] => []
      | _ :: rest => specArgv rest
    else if t = "&" ∨ t = "|" then specArgv ts
    else t :: specArgv ts

/-- Modelled from the spec (§4.4 step 3): parent-side policy for a single
command — non-blocking status check when backgrounded, otherwise block until
that specific child (the one just created) terminates. -/
def specSingleWait (background : Bool) : ParentWait :=
  if background then ParentWait.nohangCreated else ParentWait.blockCreated

/-- OS in which every `execvp` fails (program not found). -/
def osExecFails : OS :=
  { osAllOk with exec1Ok := false, exec2Ok := false }

/-- Default benign environment for concrete evaluations. -/
def env0 : Env :=
  { home := some "/home/user", chdirOk := true, os := osAllOk }

/-- Environment in which `chdir` fails. -/
def envCdFail : Env :=
  { home := some "/home/user", chdirOk := false, os := osAllOk }

/-- Environment in which `execvp` fails. -/
def envExecFail : Env :=
  { home := some "/home/user", chdirOk := true, os := osExecFails }

/-! ### Basic lemmas about the scanning loop -/

theorem scanTok_not_op (s : Scan) (i : Nat) (t : String) (h : isOp t = false) :
    scanTok s i t = s := by
  simp only [isOp, Bool.or_eq_false_iff, decide_eq_false_iff_not] at h
  obtain ⟨⟨⟨⟨h1, h2⟩, h3⟩, h4⟩, h5⟩ := h
  simp [scanTok, h1, h2, h3, h4, h5]

theorem scanTok_parsed (s : Scan) (i : Nat) (t : String) :
    (scanTok s i t).parsed = if isOp t then s.parsed.set i none else s.parsed := by
  simp only [scanTok, isOp]
  split_ifs with h1 h2 h3 h4 h5 <;> simp_all

theorem scanTok_parsed_ne (s : Scan) (i j : Nat) (t : String) (h : i ≠ j) :
    (scanTok s i t).parsed[j]? = s.parsed[j]? := by
  rw [scanTok_parsed]
  split_ifs with hop
  · exact List.getElem?_set_ne h
  · rfl

theorem scanTok_background (s : Scan) (i : Nat) (t : String) :
    (scanTok s i t).background = (s.background || decide (t = "&")) := by
  simp only [scanTok]
  split_ifs with h1 h2 h3 h4 h5 <;> simp_all

theorem scanTok_is_pipe (s : Scan) (i : Nat) (t : String) :
    (scanTok s i t).is_pipe = (s.is_pipe || decide (t = "|")) := by
  simp only [scanTok]
  split_ifs with h1 h2 h3 h4 h5 <;> simp_all

theorem scanList_append (s : Scan) (i : Nat) (as bs : List String) :
    scanList s i (as ++ bs) = scanList (scanList s i as) (i + as.length) bs := by
  induction as generalizing s i with
  | nil => simp [scanList]
  | cons a as ih =>
    simp only [List.cons_append, scanList, List.length_cons, List.append_eq]
    rw [ih]
    congr 1
    omega

theorem scanList_no_op (s : Scan) (i : Nat) (as : List String)
    (h : ∀ t ∈ as, isOp t = false) : scanList s i as = s := by
  induction as generalizing s i with
  | nil => rfl
  | cons a as ih =>
    rw [scanList, scanTok_not_op _ _ _ (h a (by simp))]
    exact ih _ _ (fun t ht => h t (by simp [ht]))

theorem scanList_background (s : Scan) (i : Nat) (ts : List String) :
    (scanList s i ts).background = (s.background || decide ("&" ∈ ts)) := by
  induction ts generalizing s i with
  | nil => simp [scanList]
  | cons t ts ih =>
    rw [scanList, ih, scanTok_background]
    by_cases h : t = "&"
    · simp [h]
    · have h' : ¬("&" = t) := fun hh => h hh.symm
      simp [List.mem_cons, h, h']

theorem scanList_is_pipe (s : Scan) (i : Nat) (ts : List String) :
    (scanList s i ts).is_pipe = (s.is_pipe || decide ("|" ∈ ts)) := by
  induction ts generalizing s i with
  | nil => simp [scanList]
  | cons t ts ih =>
    rw [scanList, ih, scanTok_is_pipe]
    by_cases h : t = "|"
    · simp [h]
    · have h' : ¬("|" = t) := fun hh => h hh.symm
      simp [List.mem_cons, h, h']

theorem scanList_parsed (s : Scan) (i : Nat) (ts : List String) :
    (scanList s i ts).parsed = applyOps s.parsed i ts := by
  induction ts generalizing s i with
  | nil => rfl
  | cons t ts ih =>
    rw [scanList, ih, scanTok_parsed]
    rfl

/-! ### The indexed loop agrees with the fold on `mkArgs` arrays -/

theorem scanIter_succ_cons (s : Scan) (i fuel : Nat) (t : String)
    (hi : i < 10) (hc : s.parsed[i]? = some (some t)) :
    scanIter s i (fuel + 1) = scanIter (scanTok s i t) (i + 1) fuel := by
  simp [scanIter, hi, hc]

theorem scanIter_succ_stop (s : Scan) (i fuel : Nat)
    (hi : i < 10) (hc : s.parsed[i]? = some none ∨ s.parsed[i]? = none) :
    scanIter s i (fuel + 1) = s := by
  rcases hc with hc | hc <;> simp [scanIter, hi, hc]

theorem scanIter_eq_scanList (ts : List String) :
    ∀ (fuel i : Nat) (s : Scan), 10 ≤ i + fuel →
      (∀ j, i ≤ j → s.parsed[j]? = (mkArgs ts)[j]?) →
      scanIter s i fuel = scanList s i ((ts.take 10).drop i) := by
  intro fuel
  induction fuel with
  | zero =>
    intro i s h10 hinv
    have hi : (ts.take 10).length ≤ i := le_trans (List.length_take_le 10 ts) (by omega)
    rw [List.drop_eq_nil_of_le hi]
    rfl
  | succ fuel ih =>
    intro i s h10 hinv
    by_cases hi : i < 10
    · have hcell := hinv i (le_refl i)
      by_cases hlt : i < ts.length
      · have hmap : i < (ts.map some).length := by simpa using hlt
        have hget : (mkArgs ts)[i]? = some (some ts[i]) := by
          rw [mkArgs, List.getElem?_append_left hmap]
          simp [List.getElem?_eq_getElem hmap]
        have htake : i < (ts.take 10).length := by
          simp [List.length_take]
          omega
        have hdrop : (ts.take 10).drop i = ts[i] :: (ts.take 10).drop (i + 1) := by
          rw [List.drop_eq_getElem_cons htake]
          congr 1
          exact List.getElem_take ts
        rw [scanIter_succ_cons s i fuel ts[i] hi (by rw [hcell, hget]), hdrop, scanList]
        exact ih (i + 1) (scanTok s i ts[i]) (by omega)
          (fun j hj => by
            rw [scanTok_parsed_ne s i j ts[i] (by omega)]
            exact hinv j (by omega))
      · have hstop : s.parsed[i]? = some none ∨ s.parsed[i]? = none := by
          rw [hcell, mkArgs, List.getElem?_append_right (by simpa using hlt)]
          simp only [List.length_map]
          rcases Nat.lt_or_ge (i - ts.length) 1 with hh | hh
          · left
            have h0 : i - ts.length = 0 := by omega
            simp [h0]
          · right
            exact List.getElem?_eq_none (by simpa using hh)
        have hnil : (ts.take 10).drop i = [] :=
          List.drop_eq_nil_of_le
            (le_trans (List.length_take_le' 10 ts) (by omega))
        rw [scanIter_succ_stop s i fuel hi hstop, hnil]
        rfl
    · have hnil : (ts.take 10).drop i = [] :=
        List.drop_eq_nil_of_le (le_trans (List.length_take_le 10 ts) (by omega))
      rw [hnil]
      cases fuel <;> simp [scanIter, hi, scanList]

theorem scanOf_mkArgs (ts : List String) :
    scanOf (mkArgs ts) = scanList (initScan (mkArgs ts)) 0 (ts.take 10) := by
  have h := scanIter_eq_scanList ts 10 0 (initScan (mkArgs ts)) (by omega)
    (fun j _ => rfl)
  simpa [scanOf] using h

theorem scanOf_mkArgs_of_le (ts : List String) (h : ts.length ≤ 10) :
    scanOf (mkArgs ts) = scanList (initScan (mkArgs ts)) 0 ts := by
  rw [scanOf_mkArgs, List.take_of_length_le h]

/-! ### Helpers about lists and the mutated `parsed` array -/

theorem set_append_len {α : Type} (xs : List α) (y : α) (ys : List α) (v : α) :
    (xs ++ y :: ys).set xs.length v = xs ++ v :: ys := by
  induction xs with
  | nil => rfl
  | cons x xs ih => simp [List.set, ih]

theorem getElem_after {α : Type} (xs ys : List α) (k : Nat) :
    (xs ++ ys)[xs.length + k]? = ys[k]? := by
  rw [List.getElem?_append_right (Nat.le_add_right _ _)]
  congr 1
  omega

theorem drop_after {α : Type} (xs : List α) (y : α) (ys : List α) :
    (xs ++ y :: ys).drop (xs.length + 1) = ys := by
  have h : xs ++ y :: ys = (xs ++ [y]) ++ ys := by simp
  rw [h, List.drop_left' (by simp)]

theorem cArgv_map_some_append (ts : List String) (rest : List (Option String)) :
    cArgv (ts.map some ++ none :: rest) = ts := by
  induction ts with
  | nil => rfl
  | cons t ts ih => simp [cArgv, ih]

theorem applyOps_spec (ts : List String) :
    ∀ (pre rest : List (Option String)),
      applyOps (pre ++ ts.map some ++ rest) pre.length ts =
        pre ++ ts.map maskTok ++ rest := by
  induction ts with
  | nil => intro pre rest; rfl
  | cons t ts ih =>
    intro pre rest
    simp only [List.map_cons, List.cons_append, applyOps]
    by_cases h : isOp t
    · rw [if_pos h]
      have hset : (pre ++ some t :: (ts.map some ++ rest)).set pre.length none =
          pre ++ none :: (ts.map some ++ rest) := by
        exact set_append_len pre (some t) (ts.map some ++ rest) none
      have hih := ih (pre ++ [none]) rest
      simp only [List.append_assoc, List.singleton_append, List.length_append,
        List.length_singleton, List.cons_append, List.nil_append] at hih
      simp only [List.append_assoc, List.cons_append] at hset ⊢
      rw [hset, hih]
      simp [maskTok, h]
    · rw [if_neg h]
      have hih := ih (pre ++ [some t]) rest
      simp only [List.append_assoc, List.singleton_append, List.length_append,
        List.length_singleton, List.cons_append, List.nil_append] at hih
      simp only [List.append_assoc, List.cons_append] at hih ⊢
      rw [hih]
      simp [maskTok, h]

theorem scanOf_parsed (ts : List String) (h : ts.length ≤ 10) :
    (scanOf (mkArgs ts)).parsed = ts.map maskTok ++ [none] := by
  rw [scanOf_mkArgs_of_le ts h, scanList_parsed]
  have happ := applyOps_spec ts [] [none]
  simpa [mkArgs, initScan] using happ

/-- Evaluated form of the `&` branch of the scan. -/
theorem scanTok_amp (s : Scan) (i : Nat) :
    scanTok s i "&" = { s with parsed := s.parsed.set i none, background := true } := rfl

/-- Evaluated form of the `>` branch of the scan. -/
theorem scanTok_gt (s : Scan) (i : Nat) :
    scanTok s i ">" = { s with
      parsed := s.parsed.set i none
      output_redirection := true
      output_file_pos := i } := rfl

/-- Evaluated form of the `>>` branch of the scan. -/
theorem scanTok_gtgt (s : Scan) (i : Nat) :
    scanTok s i ">>" = { s with
      parsed := s.parsed.set i none
      append := true
      output_file_pos := i } := rfl

/-- Evaluated form of the `<` branch of the scan. -/
theorem scanTok_lt (s : Scan) (i : Nat) :
    scanTok s i "<" = { s with
      parsed := s.parsed.set i none
      input_redirection := true
      input_file_pos := i } := rfl

/-- Evaluated form of the `|` branch of the scan (note the `pipe` call). -/
theorem scanTok_pipe (s : Scan) (i : Nat) :
    scanTok s i "|" = { s with
      parsed := s.parsed.set i none
      is_pipe := true
      piped_cmd_pos := i + 1
      scanPipes := s.scanPipes + 1 } := rfl

theorem cGet_append (xs ys : List (Option String)) (k : Nat) :
    cGet (xs ++ ys) (xs.length + k) = cGet ys k := by
  simp [cGet, getElem_after]

theorem scanOf_is_pipe (ts : List String) :
    (scanOf (mkArgs ts)).is_pipe = decide ("|" ∈ ts.take 10) := by
  rw [scanOf_mkArgs, scanList_is_pipe]
  simp [initScan]

theorem scanOf_background (ts : List String) :
    (scanOf (mkArgs ts)).background = decide ("&" ∈ ts.take 10) := by
  rw [scanOf_mkArgs, scanList_background]
  simp [initScan]

/-! ### Claims -/

/-- Claim C1 fails on the code as stated: the line `ls >` (a trailing `>`
with no path) does not trigger any classification-time failure — `execCmd`
has no malformed-operator check — and one child process is still created
(`children.length = 1`, not zero), with no parent-side error report. -/
theorem c1_counterexample :
    (execCmd (mkArgs ["ls", ">"]) osAllOk).children.length = 1 ∧
    (execCmd (mkArgs ["ls", ">"]) osAllOk).parentErr = false := by decide

/-- Claim C1, amended: for a line whose final token is a redirection
operator (`>`, `>>` or `<`) with no following path and whose other tokens
are ordinary, classification does not fail and the shell still forks one
child; the missing argument is only detected inside that child, where
opening the `NULL` path fails and the child exits with status 1.  The
parent reports no error and proceeds to its normal wait. -/
theorem c1_amended (as : List String) (op : String) (os : OS)
    (hops : ∀ t ∈ as, isOp t = false)
    (hop : op = ">" ∨ op = ">>" ∨ op = "<")
    (hlen : as.length + 1 ≤ 10)
    (hfork : os.fork1Ok = true) :
    (execCmd (mkArgs (as ++ [op])) os).children = [ChildResult.exited 1] ∧
    (execCmd (mkArgs (as ++ [op])) os).parentErr = false := by
  have hlen' : (as ++ [op]).length ≤ 10 := by
    simp only [List.length_append, List.length_cons, List.length_nil]
    omega
  have hsplit : scanOf (mkArgs (as ++ [op])) =
      scanTok (initScan (mkArgs (as ++ [op]))) as.length op := by
    rw [scanOf_mkArgs_of_le _ hlen', scanList_append,
      scanList_no_op _ _ _ hops]
    simp [scanList]
  have hparsed : (mkArgs (as ++ [op])).set as.length none =
      as.map some ++ none :: [none] := by
    rw [mkArgs]
    simp only [List.map_append, List.map_cons, List.map_nil, List.append_assoc,
      List.cons_append, List.nil_append]
    have h := set_append_len (as.map some) (some op) [none] none
    rw [List.length_map] at h
    exact h
  have hget : cGet (as.map some ++ none :: [none]) (as.length + 1) = none := by
    have h := cGet_append (as.map some ++ [none]) [none] 0
    simp only [List.length_append, List.length_map, List.length_cons,
      List.length_nil, List.append_assoc, List.singleton_append] at h
    simpa [cGet] using h
  rcases hop with hop | hop | hop <;> subst hop
  · rw [execCmd, hsplit, scanTok_gt]
    simp only [initScan, hfork, hparsed]
    simp [runSingleChild, hget, openOk]
  · rw [execCmd, hsplit, scanTok_gtgt]
    simp only [initScan, hfork, hparsed]
    simp [runSingleChild, hget, openOk]
  · rw [execCmd, hsplit, scanTok_lt]
    simp only [initScan, hfork, hparsed]
    simp [runSingleChild, hget, openOk]

theorem c1_amended_witness :
    (execCmd (mkArgs (["ls"] ++ [">"])) osAllOk).children = [ChildResult.exited 1] ∧
    (execCmd (mkArgs (["ls"] ++ [">"])) osAllOk).parentErr = false :=
  c1_amended ["ls"] ">" osAllOk (by decide) (Or.inl rfl) (by decide) rfl

/-- Claim C2: the code violates it (the spec itself labels this a defect).
On the pipeline line `ls | wc`, the classification scan of `execCmd` calls
`pipe()` (line 163) — an OS side effect — and the two descriptors of that
pipe are never closed, so after orchestration the parent's open-descriptor
count has grown by 2 instead of being unchanged. -/
theorem c2_code_bug :
    (scanOf (mkArgs ["ls", "|", "wc"])).scanPipes = 1 ∧
    (execCmd (mkArgs ["ls", "|", "wc"]) osAllOk).parentFdDelta = 2 := by decide

/-- Claim C3: the code violates it in the single-command shape.  For the
line `nosuchprogram` whose `execvp` fails, the child prints the error and
then falls through to `exit(0)` (lines 190-193) — a success status, not the
claimed non-zero one.  The parent is indeed unaffected (`exitStatus = none`,
the loop continues). -/
theorem c3_code_bug :
    (runLine ("nosuchprogram".toList) envExecFail).children = [ChildResult.exited 0] ∧
    (runLine ("nosuchprogram".toList) envExecFail).exitStatus = none := by decide

/-- Claim C4 fails on the code as stated: for the foreground single command
`ls`, the parent performs `wait(NULL)` — blocking until an *arbitrary* child
terminates (e.g. an earlier background child) — not a blocking wait on the
specific child it just created, which is what the spec-side policy
`specSingleWait` prescribes. -/
theorem c4_counterexample :
    (execCmd (mkArgs ["ls"]) osAllOk).parentWait ≠ specSingleWait false := by decide

/-- Claim C4, amended: for every single (non-pipeline) command, if
background is set the parent performs only the non-blocking
`waitpid(pid, WNOHANG)` check on the created child and returns; otherwise it
performs one blocking `wait(NULL)`, which returns when an arbitrary child —
not necessarily the one just created — terminates. -/
theorem c4_amended (ts : List String) (os : OS)
    (hpipe : "|" ∉ ts) (hfork : os.fork1Ok = true) :
    (execCmd (mkArgs ts) os).parentWait =
      if "&" ∈ ts.take 10 then ParentWait.nohangCreated
      else ParentWait.blockAnyOnce := by
  have hp : (scanOf (mkArgs ts)).is_pipe = false := by
    rw [scanOf_is_pipe]
    simp only [decide_eq_false_iff_not]
    exact fun hmem => hpipe (List.take_subset 10 ts hmem)
  rw [execCmd]
  simp only [hp, Bool.false_eq_true, if_false, hfork, if_true]
  rw [scanOf_background]
  by_cases hb : "&" ∈ ts.take 10 <;> simp [hb]

theorem c4_amended_witness :
    (execCmd (mkArgs ["sleep", "5", "&"]) osAllOk).parentWait =
      if "&" ∈ (["sleep", "5", "&"].take 10) then ParentWait.nohangCreated
      else ParentWait.blockAnyOnce :=
  c4_amended ["sleep", "5", "&"] osAllOk (by decide) rfl

/-- Claim C5 fails on the code as stated: when `chdir` to the home directory
fails, the `cd ~` branch calls `exit(1)` (line 75), terminating the whole
interpreter — not merely reporting the error. -/
theorem c5_counterexample :
    (runLine ("cd ~".toList) envCdFail).exitStatus = some 1 ∧
    (runLine ("cd ~".toList) envCdFail).errorReported = true := by decide

/-- Claim C5, amended: `cd path` calls `chdir(path)` and on failure reports
the error without terminating; `cd ~` calls `chdir` on the `HOME`
environment value and on failure (including an unset `HOME`) reports the
error and terminates the interpreter with status 1. -/
theorem c5_amended (env : Env) :
    (∀ (line : List Char) (p : String), tokenize line = ["cd", p] → p ≠ "~" →
      runLine line env = { emptyOutcome with
        chdirCalls := [some p]
        errorReported := !env.chdirOk }) ∧
    (∀ line : List Char, tokenize line = ["cd", "~"] →
      runLine line env = { emptyOutcome with
        chdirCalls := [env.home]
        errorReported := !(env.home.isSome && env.chdirOk)
        exitStatus := if env.home.isSome && env.chdirOk then none else some 1 }) := by
  constructor
  · intro line p h hp
    cases hc : env.chdirOk <;> simp [runLine, h, hp, hc, emptyOutcome]
  · intro line h
    cases hh : env.home <;> cases hc : env.chdirOk <;>
      simp [runLine, h, hh, hc, emptyOutcome]

theorem c5_amended_witness :
    runLine ("cd /tmp".toList) envCdFail = { emptyOutcome with
      chdirCalls := [some "/tmp"]
      errorReported := !envCdFail.chdirOk } :=
  (c5_amended envCdFail).1 ("cd /tmp".toList) "/tmp" (by decide) (by decide)

/-- Claim C6 fails on the code as stated: the line `ls |` contains exactly
one `|`, yet the resulting plan's second stage has an *empty* argv (no token
follows the pipe), and the orchestrator still forks two children. -/
theorem c6_counterexample :
    (scanOf (mkArgs ["ls", "|"])).is_pipe = true ∧
    cArgv ((scanOf (mkArgs ["ls", "|"])).parsed.drop
      (scanOf (mkArgs ["ls", "|"])).piped_cmd_pos) = [] ∧
    (execCmd (mkArgs ["ls", "|"]) osAllOk).children.length = 2 := by decide

/-- Claim C6, amended: for a line of the shape `a… | b…` — exactly one `|`,
with a non-empty, operator-free command on each side — the plan has two
stages with non-empty argvs (the tokens on each side), and orchestration
creates exactly two children wired through the one pipe of `pipeCommands`:
the first stage's stdout is bound to the pipe's write end and the second
stage's stdin to the same pipe's read end, so the first stage's output bytes
are the second stage's input bytes.  The parent closes both pipe ends
(`parentFdDelta = 2` counts only the leaked classification-time pipe of
line 163) and blocks on both children. -/
theorem c6_amended (a : String) (as : List String) (b : String) (bs : List String)
    (os : OS)
    (hao : ∀ t ∈ a :: as, isOp t = false) (hbo : ∀ t ∈ b :: bs, isOp t = false)
    (hlen : (a :: as).length + 1 + (b :: bs).length ≤ 10)
    (hpipe : os.pipeOk = true) (hf1 : os.fork1Ok = true) (hf2 : os.fork2Ok = true)
    (he1 : os.exec1Ok = true) (he2 : os.exec2Ok = true) :
    execCmd (mkArgs ((a :: as) ++ "|" :: b :: bs)) os =
      { children := [ChildResult.execed a (a :: as) IOBind.inherit IOBind.pipeWrite,
                     ChildResult.execed b (b :: bs) IOBind.pipeRead IOBind.inherit]
        parentFdDelta := 2
        parentWait := ParentWait.blockBothCreated
        parentErr := false } := by
  have hlen' : ((a :: as) ++ "|" :: b :: bs).length ≤ 10 := by
    simp only [List.length_append, List.length_cons]
    simp only [List.length_append, List.length_cons] at hlen
    omega
  have hsplit : scanOf (mkArgs ((a :: as) ++ "|" :: b :: bs)) =
      scanTok (initScan (mkArgs ((a :: as) ++ "|" :: b :: bs))) (a :: as).length "|" := by
    rw [scanOf_mkArgs_of_le _ hlen', scanList_append, scanList_no_op _ _ _ hao,
      scanList, scanList_no_op _ _ _ hbo]
    simp
  have hparsed : (mkArgs ((a :: as) ++ "|" :: b :: bs)).set (a :: as).length none =
      some a :: (List.map some as ++ none :: some b :: (List.map some bs ++ [none])) := by
    rw [mkArgs]
    simp only [List.map_append, List.map_cons, List.append_assoc, List.cons_append]
    have h := set_append_len (some a :: List.map some as) (some "|")
      (some b :: (List.map some bs ++ [none])) none
    simp only [List.length_cons, List.length_map] at h
    simp only [List.length_cons, List.length_map, List.cons_append]
    simpa using h
  have hx : (List.map some as ++ none :: some b :: (List.map some bs ++ [none]))[as.length + 1]? =
      some (some b) := by
    have h := getElem_after (List.map some as)
      (none :: some b :: (List.map some bs ++ [none])) 1
    rw [List.length_map] at h
    simpa using h
  have hcget0 : cGet (some a :: (List.map some as ++ none :: some b ::
      (List.map some bs ++ [none]))) 0 = some a := by
    simp only [cGet, List.getElem?_cons_zero]
  have hcgetk : cGet (some a :: (List.map some as ++ none :: some b ::
      (List.map some bs ++ [none]))) (as.length + 1 + 1) = some b := by
    simp only [cGet, List.getElem?_cons_succ, hx]
  have hargv1 : cArgv (some a :: (List.map some as ++ none :: some b ::
      (List.map some bs ++ [none]))) = a :: as := by
    simp [cArgv, cArgv_map_some_append]
  have hdrop : List.drop (as.length + 1) (List.map some as ++ none :: some b ::
      (List.map some bs ++ [none])) = some b :: (List.map some bs ++ [none]) := by
    have h := drop_after (List.map some as) none
      (some b :: (List.map some bs ++ [none]))
    rw [List.length_map] at h
    exact h
  have hargv2 : cArgv (some b :: (List.map some bs ++ [none])) = b :: bs := by
    simp [cArgv, cArgv_map_some_append]
  rw [execCmd, hsplit, scanTok_pipe]
  simp only [initScan, hparsed]
  rw [pipeCommands]
  simp [runPipeChild1, runPipeChild2, hcget0, hcgetk, hdrop, hargv1, hargv2,
    hpipe, hf1, hf2, he1, he2]

theorem c6_amended_witness :
    execCmd (mkArgs (("ls" :: ([] : List String)) ++ "|" :: "wc" :: [])) osAllOk =
      { children := [ChildResult.execed "ls" ("ls" :: []) IOBind.inherit IOBind.pipeWrite,
                     ChildResult.execed "wc" ("wc" :: []) IOBind.pipeRead IOBind.inherit]
        parentFdDelta := 2
        parentWait := ParentWait.blockBothCreated
        parentErr := false } :=
  c6_amended "ls" [] "wc" [] osAllOk (by decide) (by decide) (by decide)
    rfl rfl rfl rfl rfl

/-- Claim C7: confirmed.  For a line `a… (> or >>) p c…` with exactly one
output operator followed by a path token (all other tokens ordinary), the
path token is not part of the argv handed to `execvp` (the argv is exactly
the tokens before the operator) and is the output-redirect target; `>>`
makes the child open it `O_WRONLY | O_CREAT | O_APPEND` and `>` makes it
open it `O_WRONLY | O_CREAT | O_TRUNC`, both with mode `0777`
(created if absent). -/
theorem c7_redirection (a : String) (as : List String) (op p : String)
    (cs : List String) (os : OS)
    (hao : ∀ t ∈ a :: as, isOp t = false)
    (hop : op = ">" ∨ op = ">>")
    (hp : isOp p = false)
    (hcs : ∀ t ∈ cs, isOp t = false)
    (hlen : (a :: as).length + 2 + cs.length ≤ 10)
    (hfork : os.fork1Ok = true) (hopen : os.openOutOk = true)
    (hexec : os.exec1Ok = true) :
    execCmd (mkArgs ((a :: as) ++ op :: p :: cs)) os =
      { children := [ChildResult.execed a (a :: as) IOBind.inherit
          (IOBind.toFile (some p)
            (outputOpenSpec (if op = ">>" then true else false)))]
        parentFdDelta := 0
        parentWait := ParentWait.blockAnyOnce
        parentErr := false } := by
  have hlen' : ((a :: as) ++ op :: p :: cs).length ≤ 10 := by
    simp only [List.length_append, List.length_cons]
    simp only [List.length_append, List.length_cons] at hlen
    omega
  have hsplit : scanOf (mkArgs ((a :: as) ++ op :: p :: cs)) =
      scanTok (initScan (mkArgs ((a :: as) ++ op :: p :: cs))) (a :: as).length op := by
    rw [scanOf_mkArgs_of_le _ hlen', scanList_append, scanList_no_op _ _ _ hao,
      scanList, scanList_no_op]
    · simp
    · intro t ht
      rcases List.mem_cons.mp ht with h | h
      · rw [h]; exact hp
      · exact hcs t h
  have hparsed : (mkArgs ((a :: as) ++ op :: p :: cs)).set (a :: as).length none =
      some a :: (List.map some as ++ none :: some p :: (List.map some cs ++ [none])) := by
    rw [mkArgs]
    simp only [List.map_append, List.map_cons, List.append_assoc, List.cons_append]
    have h := set_append_len (some a :: List.map some as) (some op)
      (some p :: (List.map some cs ++ [none])) none
    simp only [List.length_cons, List.length_map] at h
    simp only [List.length_cons, List.length_map, List.cons_append]
    simpa using h
  have hx : (List.map some as ++ none :: some p :: (List.map some cs ++ [none]))[as.length + 1]? =
      some (some p) := by
    have h := getElem_after (List.map some as)
      (none :: some p :: (List.map some cs ++ [none])) 1
    rw [List.length_map] at h
    simpa using h
  have hcget0 : cGet (some a :: (List.map some as ++ none :: some p ::
      (List.map some cs ++ [none]))) 0 = some a := by
    simp only [cGet, List.getElem?_cons_zero]
  have hcgetp : cGet (some a :: (List.map some as ++ none :: some p ::
      (List.map some cs ++ [none]))) (as.length + 1 + 1) = some p := by
    simp only [cGet, List.getElem?_cons_succ, hx]
  have hargv1 : cArgv (some a :: (List.map some as ++ none :: some p ::
      (List.map some cs ++ [none]))) = a :: as := by
    simp [cArgv, cArgv_map_some_append]
  rcases hop with hop | hop <;> subst hop
  · rw [execCmd, hsplit, scanTok_gt]
    simp only [initScan, hparsed]
    simp [runSingleChild, hfork, hcget0, hcgetp, hargv1, openOk, hopen, hexec]
  · rw [execCmd, hsplit, scanTok_gtgt]
    simp only [initScan, hparsed]
    simp [runSingleChild, hfork, hcget0, hcgetp, hargv1, openOk, hopen, hexec]

theorem c7_redirection_witness :
    execCmd (mkArgs (("ls" :: ([] : List String)) ++ ">>" :: "f.txt" :: [])) osAllOk =
      { children := [ChildResult.execed "ls" ("ls" :: []) IOBind.inherit
          (IOBind.toFile (some "f.txt")
            (outputOpenSpec (if (">>" : String) = ">>" then true else false)))]
        parentFdDelta := 0
        parentWait := ParentWait.blockAnyOnce
        parentErr := false } :=
  c7_redirection "ls" [] ">>" "f.txt" [] osAllOk (by decide) (Or.inr rfl)
    (by decide) (by decide) (by decide) rfl rfl rfl

/-- Claim C8 fails on the code as stated: on `ls > f -l` the argv handed to
`execvp` is `["ls"]`, because every operator cell is overwritten with `NULL`
and `execvp`'s argument vector ends at the first `NULL` — whereas the
claim's rule (`specArgv`, the spec's words) would keep the trailing ordinary
token and produce `["ls", "-l"]`. -/
theorem c8_counterexample :
    cArgv ((scanOf (mkArgs ["ls", ">", "f", "-l"])).parsed) = ["ls"] ∧
    specArgv ["ls", ">", "f", "-l"] = ["ls", "-l"] ∧
    (["ls"] : List String) ≠ ["ls", "-l"] := by decide

/-- Claim C8, amended: the argv handed to program replacement consists of
exactly the tokens strictly *before the first operator token* — the operator
cell is cleared to `NULL`, which terminates the vector, so ordinary argument
tokens appearing after any operator (e.g. `-l` in `ls > f -l`) are *not*
included. -/
theorem c8_amended (as : List String) (op : String) (rest : List String)
    (hao : ∀ t ∈ as, isOp t = false) (hop : isOp op = true)
    (hlen : as.length + 1 + rest.length ≤ 10) :
    cArgv ((scanOf (mkArgs (as ++ op :: rest))).parsed) = as := by
  have hlen' : (as ++ op :: rest).length ≤ 10 := by
    simp only [List.length_append, List.length_cons]
    omega
  rw [scanOf_parsed _ hlen']
  simp only [List.map_append, List.map_cons]
  have h1 : as.map maskTok = as.map some :=
    List.map_congr_left (fun t ht => by simp [maskTok, hao t ht])
  have h2 : maskTok op = none := by simp [maskTok, hop]
  rw [h1, h2]
  simp only [List.append_assoc, List.cons_append]
  exact cArgv_map_some_append as _

theorem c8_amended_witness :
    cArgv ((scanOf (mkArgs (["ls"] ++ ">" :: ["f", "-l"]))).parsed) = ["ls"] :=
  c8_amended ["ls"] ">" ["f", "-l"] (by decide) (by decide) (by decide)

/-- Claim C9: a line that tokenizes to zero tokens (empty, or only
separators) is a no-op of the read-eval loop: no child is created, no error
is reported, no `chdir` happens, and the interpreter does not exit — it just
prompts for the next line (all dispatch branches guard on a non-`NULL`
`args[0]`). -/
theorem c9_blank_line (line : List Char) (env : Env)
    (h : tokenize line = []) :
    runLine line env = emptyOutcome := by
  simp [runLine, h]

theorem c9_blank_line_witness :
    runLine [' ', ' ', ' '] env0 = emptyOutcome :=
  c9_blank_line [' ', ' ', ' '] env0 (by decide)

/-- Claim C10: `cd` with no argument is a no-op — `args[1]` is `NULL`, so
the `if (args[1] != NULL)` guard skips everything: no `chdir` call, no error
report, no child process, and the interpreter continues. -/
theorem c10_cd_no_arg (line : List Char) (env : Env)
    (h : tokenize line = ["cd"]) :
    runLine line env = emptyOutcome := by
  simp [runLine, h]

theorem c10_cd_no_arg_witness :
    runLine ("cd".toList) env0 = emptyOutcome :=
  c10_cd_no_arg ("cd".toList) env0 (by decide)

end SeaShell
